import Mathlib

/-!
Shallow embedding of `src/dagstuhl-dome-extension-metrics/__main__.py`:
a fetcher for bio.tools records (`get_tools`), a dict-based deduplication
step (`aggregate`, inlined in the Python `main`), a record-to-row
transformer (`tools_to_df`), and the driver control flow (`mainDf`).
Unhandled Python exceptions (KeyError, ZeroDivisionError) are modelled
with `Except PyError`; the unbounded `while True` loop of the fetcher is
modelled with explicit fuel, an out-of-fuel outcome standing for a loop
still spinning.
-/

namespace DomeMetrics

/-- One `topic` entry of a bio.tools record: an object carrying a `uri`. -/
structure TopicRef where
  uri : String
deriving DecidableEq, Repr

/-- One `documentation` entry of a bio.tools record: an object carrying a `url`. -/
structure Doc where
  url : String
deriving DecidableEq, Repr

/-- One `link` entry of a bio.tools record: an object with `url` and `type`. -/
structure Link where
  url : String
  type : String
deriving DecidableEq, Repr

/-- A bio.tools tool record as the Python code accesses it.  Fields read
with `tool.get(k, default)` or `data.get(k)` may be absent, and fields read
with `tool[k]` raise `KeyError` when absent; absence is `none`. -/
structure Record where
  biotoolsID : Option String
  name : Option String
  topic : Option (List TopicRef)
  documentation : Option (List Doc)
  link : Option (List Link)
deriving DecidableEq, Repr

/-- The unhandled Python exceptions the embedded code can raise. -/
inductive PyError where
  | keyError (field : String)
  | zeroDivisionError
deriving DecidableEq, Repr

/-- Constant `GENOMIC_EDAM_TOPICS` from the source: EDAM topic IDs related to genomics. -/
def GENOMIC_EDAM_TOPICS : List String :=
  ["0622", "0797", "3173", "3974", "0085", "3174", "3943",
   "0208", "0194", "3796", "3922", "0122", "3308", "3941"]

/-- Constant `PROTEOMICS_EDAM_TOPICS` from the source. -/
def PROTEOMICS_EDAM_TOPICS : List String := ["0121", "3922"]

/-- Constant `MACHINE_LEARNING_EDAM_TOPICS` from the source. -/
def MACHINE_LEARNING_EDAM_TOPICS : List String := ["3474"]

/-- The topic URI built in `tools_to_df`:
`f"http://edamontology.org/topic_{t}"`. -/
def topicUri (t : String) : String := "http://edamontology.org/topic_" ++ t

/-- A successfully parsed JSON page of the bio.tools search endpoint:
`list` (records of this page), `count` (total matches, used only for the
`max_pages` estimate), `next` (absent or empty when exhausted). -/
structure Page where
  list : List Record
  count : Nat
  next : Option String
deriving DecidableEq, Repr

/-- The outcome of one HTTP request in `get_tools`, as the `try` block
distinguishes them: a parsed 2xx page, a `requests.RequestException`
carrying the status code of its response when one is present, or a
`json.JSONDecodeError`. -/
inductive Response where
  | ok (p : Page)
  | requestError (status : Option Nat)
  | parseError
deriving DecidableEq, Repr

/-- The observable outcome of running the fetch loop:  `done` (the Python
function returned `tools`, having issued the requests in `reqs` and slept
`slept` seconds in total), `faultDivZero` (unhandled `ZeroDivisionError`
from `data["count"] / len(data["list"])`), or `spinning` (fuel exhausted:
the `while True` loop is still running, in the given state). -/
inductive FetchOutcome where
  | done (tools : List Record) (reqs : List Nat) (slept : Nat)
  | faultDivZero (reqs : List Nat) (slept : Nat)
  | spinning (page : Nat) (tools : List Record) (reqs : List Nat) (slept : Nat)
deriving DecidableEq, Repr

/-- The test `e.response is not None and 500 <= e.response.status_code < 600`. -/
def is5xx : Option Nat → Bool
  | some s => decide (500 ≤ s) && decide (s < 600)
  | none => false

/-- The `while True` loop of `get_tools`.  `responses i` is the outcome of
the i-th HTTP request issued (requests are counted by `reqs.length`).
Per iteration: on a parsed page, records are appended, the loop breaks when
`next` is absent or empty; otherwise `page` advances and
`max_pages = ceil(count / len(list))` is computed, raising
`ZeroDivisionError` when the `list` of the page is empty (`max_pages` itself
only feeds a log line and is not kept here).  On a `RequestException`
with a 5xx response the code sleeps 5 seconds and retries; on any other
`RequestException` it falls through to the next iteration unchanged; on a
`JSONDecodeError` it logs and breaks, returning what was accumulated. -/
def get_tools (responses : Nat → Response) :
    Nat → Nat → List Record → List Nat → Nat → FetchOutcome
  | 0, page, tools, reqs, slept => .spinning page tools reqs slept
  | fuel + 1, page, tools, reqs, slept =>
    match responses reqs.length with
    | .ok p =>
      let tools2 := tools ++ p.list
      if p.next.getD "" = "" then
        .done tools2 (reqs ++ [page]) slept
      else if p.list.length = 0 then
        .faultDivZero (reqs ++ [page]) slept
      else
        get_tools responses fuel (page + 1) tools2 (reqs ++ [page]) slept
    | .requestError st =>
      if is5xx st then
        get_tools responses fuel page tools (reqs ++ [page]) (slept + 5)
      else
        get_tools responses fuel page tools (reqs ++ [page]) slept
    | .parseError => .done tools (reqs ++ [page]) slept

/-- A default page for indexing. -/
def defaultPage : Page := { list := [], count := 0, next := none }

/-- A response stream in which the i-th request is answered by the i-th
page of `ps`, every request succeeding with a parsed body. -/
def okStream (ps : List Page) : Nat → Response :=
  fun i => .ok (ps.getD i defaultPage)

/-- One row of the DataFrame built by `tools_to_df`. -/
structure Row where
  id : String
  name : String
  is_genomics : Bool
  is_proteomics : Bool
  is_machine_learning : Bool
  documentation : String
  repository : String
deriving DecidableEq, Repr

/-- Python substring containment `needle in hay` on strings: some suffix
of `hay` starts with `needle`. -/
def pyInStr (needle hay : String) : Bool :=
  (List.range (hay.data.length + 1)).any
    (fun i => decide ((hay.data.drop i).take needle.data.length = needle.data))

/-- The loop body of `tools_to_df` for one tool.  `biotoolsID` and `name`
are read with `tool.get(k, "")`; `tool["topic"]`, `tool["documentation"]`
and `tool["link"]` raise `KeyError` when absent, in that evaluation order.
The three flags test, for each configured topic id, membership of
`topicUri id` in the set of topic URIs of the record; `documentation` joins the
documentation URLs with a comma; `repository` joins, with a comma, the URLs
of the links whose `type` contains the substring `"Repository"`. -/
def recordToRow (tool : Record) : Except PyError Row :=
  match tool.topic with
  | none => Except.error (PyError.keyError "topic")
  | some topics =>
    match tool.documentation with
    | none => Except.error (PyError.keyError "documentation")
    | some docs =>
      match tool.link with
      | none => Except.error (PyError.keyError "link")
      | some links =>
        Except.ok
          { id := tool.biotoolsID.getD ""
            name := tool.name.getD ""
            is_genomics :=
              GENOMIC_EDAM_TOPICS.any
                (fun g => topics.any (fun tr => tr.uri == topicUri g))
            is_proteomics :=
              PROTEOMICS_EDAM_TOPICS.any
                (fun p => topics.any (fun tr => tr.uri == topicUri p))
            is_machine_learning :=
              MACHINE_LEARNING_EDAM_TOPICS.any
                (fun m => topics.any (fun tr => tr.uri == topicUri m))
            documentation := String.intercalate "," (docs.map Doc.url)
            repository :=
              String.intercalate ","
                ((links.filter (fun l => pyInStr "Repository" l.type)).map
                  Link.url) }

/-- Function `tools_to_df`: one row per input record, in input order; the first
record whose required field is missing aborts the whole conversion with
the corresponding `KeyError` (no per-record recovery, no DataFrame built). -/
def tools_to_df : List Record → Except PyError (List Row)
  | [] => Except.ok []
  | tool :: rest =>
    match recordToRow tool with
    | Except.error e => Except.error e
    | Except.ok row =>
      match tools_to_df rest with
      | Except.error e => Except.error e
      | Except.ok rows => Except.ok (row :: rows)

/-- Insertion `d[k] = v` into a Python dict represented as an ordered
association list: an existing key keeps its position and has its value
overwritten; a new key is appended. -/
def dictInsert (d : List (String × Record)) (k : String) (v : Record) :
    List (String × Record) :=
  if d.any (fun p => p.1 == k) then
    d.map (fun p => if p.1 == k then (k, v) else p)
  else
    d ++ [(k, v)]

/-- The dict comprehension `{tool["biotoolsID"]: tool for tool in tools}`:
builds the dict left to right, raising `KeyError` on a record without a
`biotoolsID` field. -/
def buildDict : List Record → List (String × Record) →
    Except PyError (List (String × Record))
  | [], d => Except.ok d
  | tool :: rest, d =>
    match tool.biotoolsID with
    | none => Except.error (PyError.keyError "biotoolsID")
    | some k => buildDict rest (dictInsert d k tool)

/-- The deduplication step of `main`:
`unique_tools = {tool["biotoolsID"]: tool for tool in tools};
tools = list(unique_tools.values())`. -/
def aggregate (tools : List Record) : Except PyError (List Record) :=
  (buildDict tools []).map (fun d => d.map Prod.snd)

/-- Where the records of the driver come from on a given run: the derived-table
cache file, the raw-fetch cache file (`bio.tools.json`), or the network
(the concatenation of the per-topic `get_tools` results, in which case the
raw cache is written and then the dict-based deduplication runs). -/
inductive RunSource where
  | dfCache (rows : List Row)
  | rawCache (tools : List Record)
  | network (fetched : List Record)

/-- The derived table produced by `main`: returned from the derived-table
cache unchanged when that file exists; otherwise built by `tools_to_df`
from the raw records, which are deduplicated first only on the network
path (the dedup statements sit inside the `else` branch of the raw-cache
check). -/
def mainDf : RunSource → Except PyError (List Row)
  | .dfCache rows => Except.ok rows
  | .rawCache tools => tools_to_df tools
  | .network fetched => (aggregate fetched).bind tools_to_df

/-- Spec-side pagination shape for claim C4, exactly as the claim words
it: every page but the last has a non-empty `next`, the last page has
`next` empty or absent. -/
def nextChain : List Page → Bool
  | [] => false
  | [p] => p.next.getD "" == ""
  | p :: rest => (p.next.getD "" != "") && nextChain rest

/-- The pagination shape under which the fetch loop actually completes:
`nextChain`, strengthened so that every page but the last also has a
non-empty `list` (otherwise `max_pages = ceil(count / len(list))` raises
`ZeroDivisionError`). -/
def happyChain : List Page → Bool
  | [] => false
  | [p] => p.next.getD "" == ""
  | p :: rest => (p.next.getD "" != "") && !p.list.isEmpty && happyChain rest

/-- Decidable equality of `Except` results, so that concrete runs of the
embedded code can be checked by `decide`. -/
instance instDecidableEqExcept {ε α : Type} [DecidableEq ε] [DecidableEq α] :
    DecidableEq (Except ε α) := fun x y =>
  match x, y with
  | Except.ok a, Except.ok b =>
    if h : a = b then Decidable.isTrue (congrArg Except.ok h)
    else Decidable.isFalse (fun hc => h (Except.noConfusion hc id))
  | Except.error a, Except.error b =>
    if h : a = b then Decidable.isTrue (congrArg Except.error h)
    else Decidable.isFalse (fun hc => h (Except.noConfusion hc id))
  | Except.ok _, Except.error _ => Decidable.isFalse (fun hc => Except.noConfusion hc)
  | Except.error _, Except.ok _ => Decidable.isFalse (fun hc => Except.noConfusion hc)

/-- C2: on a JSON parse failure (`json.JSONDecodeError`), `get_tools` logs
an error and breaks out of the loop, returning the records accumulated from
the earlier pages; the failure is not escalated to the caller (the function
returns normally) and the same page is not retried (exactly one request is
issued in this iteration and the loop ends). -/
theorem get_tools_parse_failure_returns_partial (responses : Nat → Response)
    (fuel page : Nat) (tools : List Record) (reqs : List Nat) (slept : Nat)
    (h : responses reqs.length = Response.parseError) :
    get_tools responses (fuel + 1) page tools reqs slept
      = FetchOutcome.done tools (reqs ++ [page]) slept := by
  simp [get_tools, h]

/-- Witness for C2 at a concrete input. -/
theorem get_tools_parse_failure_returns_partial_witness :
    get_tools (fun _ => Response.parseError) 1 1 [] [] 0
      = FetchOutcome.done [] [1] 0 :=
  get_tools_parse_failure_returns_partial (fun _ => Response.parseError) 0 1 [] [] 0 rfl

/-- C3: on a `requests.RequestException`, if the exception carries a
response with a 5xx status code the loop sleeps 5 seconds and retries the
same page; on any other request failure (no response attached, or a
non-5xx status) it retries the same page immediately.  In both cases the
page counter does not advance, the accumulated records are unchanged, the
fetch does not terminate at this iteration, and no failure is surfaced to
the caller: the outcome is exactly that of continuing the loop on the same
page. -/
theorem get_tools_request_failure_retries (responses : Nat → Response)
    (fuel page : Nat) (tools : List Record) (reqs : List Nat) (slept : Nat)
    (st : Option Nat) (h : responses reqs.length = Response.requestError st) :
    get_tools responses (fuel + 1) page tools reqs slept
      = if is5xx st then
          get_tools responses fuel page tools (reqs ++ [page]) (slept + 5)
        else
          get_tools responses fuel page tools (reqs ++ [page]) slept := by
  simp [get_tools, h]

/-- Witness for C3 at a concrete input: a 503 answer makes the next
iteration retry page 1 after 5 more seconds of sleep. -/
theorem get_tools_request_failure_retries_witness :
    get_tools (fun _ => Response.requestError (some 503)) 1 1 [] [] 0
      = FetchOutcome.spinning 1 [] [1] 5 :=
  (get_tools_request_failure_retries
    (fun _ => Response.requestError (some 503)) 0 1 [] [] 0 (some 503) rfl).trans
    (by decide)

/-- C9: a successfully parsed page whose `list` is empty and whose `next`
is non-empty makes `get_tools` raise an unhandled `ZeroDivisionError` at
`max_pages = math.ceil(data["count"] / len(data["list"]))` — neither
`except` clause catches it — instead of returning records, retrying, or
terminating cleanly. -/
theorem get_tools_empty_page_divzero (responses : Nat → Response)
    (fuel page : Nat) (tools : List Record) (reqs : List Nat) (slept : Nat)
    (p : Page) (hresp : responses reqs.length = Response.ok p)
    (hlist : p.list = []) (hnext : p.next.getD "" ≠ "") :
    get_tools responses (fuel + 1) page tools reqs slept
      = FetchOutcome.faultDivZero (reqs ++ [page]) slept := by
  simp [get_tools, hresp, hlist, hnext]

/-- Witness for C9 at a concrete input. -/
theorem get_tools_empty_page_divzero_witness :
    get_tools (okStream [{ list := [], count := 7, next := some "more" }]) 5 1 [] [] 0
      = FetchOutcome.faultDivZero [1] 0 :=
  get_tools_empty_page_divzero
    (okStream [{ list := [], count := 7, next := some "more" }]) 4 1 [] [] 0
    { list := [], count := 7, next := some "more" } rfl rfl (by decide)

/-- Happy-path run of the fetch loop: when the next `ps.length` requests
are answered by the successive pages of `ps`, each page but the last has a
non-empty `next` and a non-empty `list`, and the last page has `next`
absent or empty, the loop requests consecutive page numbers starting at
`page0`, appends the records of every page in order, and returns. -/
theorem get_tools_happyChain (ps : List Page) :
    ∀ (responses : Nat → Response) (fuel page0 : Nat)
      (tools0 : List Record) (reqs0 : List Nat) (slept0 : Nat),
    (∀ i, i < ps.length →
      responses (reqs0.length + i) = Response.ok (ps.getD i defaultPage)) →
    happyChain ps = true → ps.length ≤ fuel →
    get_tools responses fuel page0 tools0 reqs0 slept0
      = FetchOutcome.done (tools0 ++ ps.flatMap Page.list)
          (reqs0 ++ (List.range ps.length).map (fun i => page0 + i)) slept0 := by
  induction ps with
  | nil =>
    intro responses fuel page0 tools0 reqs0 slept0 _ hchain _
    simp [happyChain] at hchain
  | cons p rest ih =>
    intro responses fuel page0 tools0 reqs0 slept0 hresp hchain hfuel
    cases fuel with
    | zero => simp only [List.length_cons] at hfuel; omega
    | succ f =>
      have h0 : responses reqs0.length = Response.ok p := by
        have h := hresp 0 (by simp)
        simpa using h
      cases rest with
      | nil =>
        have hnext : p.next.getD "" = "" := by
          simpa [happyChain] using hchain
        simp [get_tools, h0, hnext, List.range_succ_eq_map]
      | cons q rest2 =>
        have hc := hchain
        simp only [happyChain, Bool.and_eq_true, bne_iff_ne, ne_eq,
          Bool.not_eq_true', List.isEmpty_eq_false] at hc
        obtain ⟨⟨hnext, hlist⟩, hchain2⟩ := hc
        have hlen : ¬ (p.list.length = 0) := by
          intro h; exact hlist (List.length_eq_zero.mp h)
        have hresp2 : ∀ i, i < (q :: rest2).length →
            responses ((reqs0 ++ [page0]).length + i)
              = Response.ok ((q :: rest2).getD i defaultPage) := by
          intro i hi
          have h1 := hresp (i + 1)
            (by simp only [List.length_cons] at hi ⊢; omega)
          have h2 : (reqs0 ++ [page0]).length + i = reqs0.length + (i + 1) := by
            simp only [List.length_append, List.length_cons, List.length_nil]
            omega
          have h3 : (p :: q :: rest2).getD (i + 1) defaultPage
              = (q :: rest2).getD i defaultPage := List.getD_cons_succ
          rw [h2, h1, h3]
        have hfuel2 : (q :: rest2).length ≤ f := by
          simp only [List.length_cons] at hfuel ⊢; omega
        simp only [get_tools, h0, if_neg hnext, if_neg hlen]
        rw [ih responses f (page0 + 1) (tools0 ++ p.list) (reqs0 ++ [page0])
          slept0 hresp2 hchain2 hfuel2]
        have hreqs : (reqs0 ++ [page0])
              ++ (List.range (q :: rest2).length).map (fun i => page0 + 1 + i)
            = reqs0 ++ (List.range (p :: q :: rest2).length).map (fun i => page0 + i) := by
          rw [List.append_assoc]
          congr 1
          have : (List.range ((q :: rest2).length + 1)).map (fun i => page0 + i)
              = page0 :: (List.range (q :: rest2).length).map (fun i => page0 + 1 + i) := by
            rw [List.range_succ_eq_map, List.map_cons, List.map_map]
            refine congrArg₂ _ (by omega) (List.map_congr_left ?_)
            intro a _
            simp only [Function.comp_apply, Nat.succ_eq_add_one]
            omega
          simp only [List.length_cons] at this ⊢
          rw [this]
          rfl
        rw [hreqs]
        simp [List.append_assoc]

/-- C4 (amended): for a sequence of successfully parsed pages in which
pages 1 through k have a non-empty `next` field and a non-empty `list`,
and page k+1 has `next` empty or absent, the fetch issues exactly k+1
requests, with page numbers 1 through k+1, and returns the concatenation
of the `list` arrays of all pages, in page order.  (The non-empty `list`
condition is forced by the `ZeroDivisionError` of C9.) -/
theorem get_tools_pagination_concat (ps : List Page) (fuel : Nat)
    (hchain : happyChain ps = true) (hfuel : ps.length ≤ fuel) :
    get_tools (okStream ps) fuel 1 [] [] 0
      = FetchOutcome.done (ps.flatMap Page.list)
          ((List.range ps.length).map (fun i => 1 + i)) 0 := by
  have hresp : ∀ i, i < ps.length →
      okStream ps ((List.nil : List Nat).length + i)
        = Response.ok (ps.getD i defaultPage) := by
    intro i _
    simp [okStream]
  have h := get_tools_happyChain ps (okStream ps) fuel 1 [] [] 0 hresp hchain hfuel
  simpa using h

/-- Concrete records and pages for the C4 witness run. -/
def pageRecA : Record :=
  { biotoolsID := some "a", name := some "A",
    topic := some [], documentation := some [], link := some [] }

/-- Second concrete record for the C4 witness run. -/
def pageRecB : Record :=
  { biotoolsID := some "b", name := some "B",
    topic := some [], documentation := some [], link := some [] }

/-- Two-page pagination for the C4 witness: page 1 has a non-empty `next`,
page 2 has `next` absent. -/
def psTwoPages : List Page :=
  [{ list := [pageRecA], count := 2, next := some "page2" },
   { list := [pageRecB], count := 2, next := none }]

/-- Witness for C4 at a concrete two-page input. -/
theorem get_tools_pagination_concat_witness :
    get_tools (okStream psTwoPages) 2 1 [] [] 0
      = FetchOutcome.done (psTwoPages.flatMap Page.list)
          ((List.range psTwoPages.length).map (fun i => 1 + i)) 0 :=
  get_tools_pagination_concat psTwoPages 2 (by decide) (by decide)

/-- Pagination whose first page has a non-empty `next` but an empty
`list`, and whose second page ends the chain: the shape required by C4 as
stated. -/
def psEmptyPage : List Page :=
  [{ list := [], count := 7, next := some "more" },
   { list := [], count := 7, next := none }]

/-- C4 counterexample: `psEmptyPage` satisfies the precondition of the claim
(page 1 has non-empty `next`, page 2 has `next` absent, both parse), yet
the fetch raises the unhandled `ZeroDivisionError` after the first request
instead of issuing two requests and returning the concatenated lists. -/
theorem get_tools_pagination_counterexample :
    nextChain psEmptyPage = true ∧
    get_tools (okStream psEmptyPage) 10 1 [] [] 0
        = FetchOutcome.faultDivZero [1] 0 ∧
    get_tools (okStream psEmptyPage) 10 1 [] [] 0
        ≠ FetchOutcome.done (psEmptyPage.flatMap Page.list)
            ((List.range psEmptyPage.length).map (fun i => 1 + i)) 0 := by
  decide

/-- The last record of `tools` (in processing order) whose `biotoolsID`
is `some id`. -/
def lastOcc (id : String) : List Record → Option Record
  | [] => none
  | t :: rest =>
    match lastOcc id rest with
    | some r => some r
    | none => if t.biotoolsID == some id then some t else none

/-- Function `lastOcc` agrees with taking the last element of the filtered list. -/
theorem lastOcc_eq_getLast? (id : String) (tools : List Record) :
    lastOcc id tools = (tools.filter (fun t => t.biotoolsID == some id)).getLast? := by
  induction tools with
  | nil => rfl
  | cons t rest ih =>
    rw [List.filter_cons]
    by_cases h : (t.biotoolsID == some id) = true
    · rw [if_pos h]
      cases hlo : lastOcc id rest with
      | some r =>
        have hfil : (rest.filter (fun t => t.biotoolsID == some id)).getLast?
            = some r := by rw [← ih, hlo]
        cases hl : rest.filter (fun t => t.biotoolsID == some id) with
        | nil => rw [hl] at hfil; cases hfil
        | cons q l =>
          rw [hl] at hfil
          rw [List.getLast?_cons_cons, hfil]
          simp [lastOcc, hlo]
      | none =>
        have hfil : (rest.filter (fun t => t.biotoolsID == some id)).getLast?
            = none := by rw [← ih, hlo]
        cases hl : rest.filter (fun t => t.biotoolsID == some id) with
        | cons q l =>
          rw [hl, List.getLast?_eq_getLast (q :: l) (by simp)] at hfil
          cases hfil
        | nil =>
          simp [lastOcc, hlo, h]
    · rw [if_neg h, ← ih]
      cases hlo : lastOcc id rest with
      | some r => simp [lastOcc, hlo]
      | none => simp [lastOcc, hlo, h]

/-- Overwriting an existing key of the dict does not change the entries
filtered at a different key. -/
theorem dictInsert_filter_ne (d : List (String × Record)) (k id : String)
    (v : Record) (h : k ≠ id) :
    (dictInsert d k v).filter (fun p => p.1 == id)
      = d.filter (fun p => p.1 == id) := by
  unfold dictInsert
  by_cases hmem : d.any (fun p => p.1 == k) = true
  · rw [if_pos hmem, List.filter_map]
    have h1 : d.filter ((fun p => p.1 == id) ∘ fun p => if p.1 == k then (k, v) else p)
        = d.filter (fun p => p.1 == id) := by
      refine List.filter_congr ?_
      intro p _
      by_cases hk : (p.1 == k) = true
      · have hk2 : p.1 = k := beq_iff_eq.mp hk
        simp [Function.comp, hk, hk2, h, Ne.symm h]
      · simp [Function.comp, hk]
    rw [h1]
    refine (List.map_congr_left ?_).trans (List.map_id _)
    intro p hp
    have hid : p.1 = id := beq_iff_eq.mp (List.mem_filter.mp hp).2
    have hne : (p.1 == k) = false := by
      simp [hid]
      exact fun hc => h hc.symm
    simp [hne]
  · rw [if_neg hmem, List.filter_append]
    have h2 : [(k, v)].filter (fun p => p.1 == id) = [] := by simp [h]
    rw [h2, List.append_nil]

/-- In a dict with nodup keys, the entries carrying the key `k` form a
single pair once `k` is known to be present. -/
theorem filter_key_singleton (d : List (String × Record)) (k : String)
    (hnd : (d.map Prod.fst).Nodup) (hmem : d.any (fun p => p.1 == k) = true) :
    ∃ p0 : String × Record, d.filter (fun p => p.1 == k) = [p0] ∧ p0.1 = k := by
  induction d with
  | nil => simp at hmem
  | cons p rest ih =>
    simp only [List.map_cons, List.nodup_cons] at hnd
    obtain ⟨hpk, hnd2⟩ := hnd
    by_cases hk : (p.1 == k) = true
    · have hpk2 : p.1 = k := beq_iff_eq.mp hk
      refine ⟨p, ?_, hpk2⟩
      rw [List.filter_cons, if_pos hk]
      have hempty : rest.filter (fun q => q.1 == k) = [] := by
        rw [List.filter_eq_nil_iff]
        intro q hq hqk
        exact hpk (List.mem_map.mpr
          ⟨q, hq, (beq_iff_eq.mp hqk).trans hpk2.symm⟩)
      rw [hempty]
    · rw [List.filter_cons, if_neg hk]
      have hk2 : (p.1 == k) = false := Bool.eq_false_iff.mpr hk
      have hmem2 : rest.any (fun q => q.1 == k) = true := by
        rw [List.any_cons, hk2, Bool.false_or] at hmem
        exact hmem
      exact ih hnd2 hmem2

/-- Inserting `(k, v)` leaves exactly the single entry `(k, v)` at key
`k`, whether `k` was present (overwrite) or not (append). -/
theorem dictInsert_filter_eq (d : List (String × Record)) (k : String)
    (v : Record) (hnd : (d.map Prod.fst).Nodup) :
    (dictInsert d k v).filter (fun p => p.1 == k) = [(k, v)] := by
  unfold dictInsert
  by_cases hmem : d.any (fun p => p.1 == k) = true
  · rw [if_pos hmem, List.filter_map]
    have h1 : d.filter ((fun p => p.1 == k) ∘ fun p => if p.1 == k then (k, v) else p)
        = d.filter (fun p => p.1 == k) := by
      refine List.filter_congr ?_
      intro p _
      by_cases hk : (p.1 == k) = true
      · simp [Function.comp, hk]
      · simp [Function.comp, hk]
    rw [h1]
    obtain ⟨p0, hp0, hp0k⟩ := filter_key_singleton d k hnd hmem
    rw [hp0]
    simp [hp0k]
  · rw [if_neg hmem, List.filter_append]
    have h2 : d.filter (fun p => p.1 == k) = [] := by
      rw [List.filter_eq_nil_iff]
      intro q hq hqk
      exact hmem (List.any_eq_true.mpr ⟨q, hq, hqk⟩)
    rw [h2]
    simp

/-- Dict insertion preserves nodup keys. -/
theorem dictInsert_keys_nodup (d : List (String × Record)) (k : String)
    (v : Record) (hnd : (d.map Prod.fst).Nodup) :
    ((dictInsert d k v).map Prod.fst).Nodup := by
  unfold dictInsert
  by_cases hmem : d.any (fun p => p.1 == k) = true
  · rw [if_pos hmem, List.map_map]
    have h1 : d.map (Prod.fst ∘ fun p => if p.1 == k then (k, v) else p)
        = d.map Prod.fst := by
      refine List.map_congr_left ?_
      intro p _
      by_cases hk : (p.1 == k) = true
      · simp [Function.comp, hk, (beq_iff_eq.mp hk).symm]
      · simp [Function.comp, hk]
    rw [h1]
    exact hnd
  · rw [if_neg hmem, List.map_append, List.nodup_append]
    refine ⟨hnd, by simp, ?_⟩
    intro a ha hb
    simp only [List.map_cons, List.map_nil, List.mem_singleton] at hb
    subst hb
    obtain ⟨p, hp, hpk⟩ := List.mem_map.mp ha
    exact hmem (List.any_eq_true.mpr ⟨p, hp, by simp [hpk]⟩)

/-- Dict insertion preserves the invariant that for each stored record the
`biotoolsID` is its own key. -/
theorem dictInsert_values_id (d : List (String × Record)) (k : String)
    (v : Record) (hd : ∀ p ∈ d, p.2.biotoolsID = some p.1)
    (hv : v.biotoolsID = some k) :
    ∀ p ∈ dictInsert d k v, p.2.biotoolsID = some p.1 := by
  unfold dictInsert
  by_cases hmem : d.any (fun p => p.1 == k) = true
  · rw [if_pos hmem]
    intro p hp
    obtain ⟨q, hq, hfq⟩ := List.mem_map.mp hp
    by_cases hk : (q.1 == k) = true
    · rw [if_pos hk] at hfq
      rw [← hfq]
      exact hv
    · rw [if_neg (by simp [hk])] at hfq
      rw [← hfq]
      exact hd q hq
  · rw [if_neg hmem]
    intro p hp
    rcases List.mem_append.mp hp with h | h
    · exact hd p h
    · simp only [List.mem_singleton] at h
      subst h
      exact hv

/-- Building the dict preserves nodup keys. -/
theorem buildDict_keys_nodup (tools : List Record) :
    ∀ (d d2 : List (String × Record)), (d.map Prod.fst).Nodup →
    buildDict tools d = Except.ok d2 → (d2.map Prod.fst).Nodup := by
  induction tools with
  | nil =>
    intro d d2 hnd h
    simp only [buildDict, Except.ok.injEq] at h
    subst h
    exact hnd
  | cons t rest ih =>
    intro d d2 hnd h
    unfold buildDict at h
    cases ht : t.biotoolsID with
    | none => rw [ht] at h; cases h
    | some k =>
      rw [ht] at h
      exact ih (dictInsert d k t) d2 (dictInsert_keys_nodup d k t hnd) h

/-- Building the dict preserves the invariant that for each stored record the
`biotoolsID` is its own key. -/
theorem buildDict_values_id (tools : List Record) :
    ∀ (d d2 : List (String × Record)),
    (∀ p ∈ d, p.2.biotoolsID = some p.1) →
    buildDict tools d = Except.ok d2 →
    ∀ p ∈ d2, p.2.biotoolsID = some p.1 := by
  induction tools with
  | nil =>
    intro d d2 hval h
    simp only [buildDict, Except.ok.injEq] at h
    subst h
    exact hval
  | cons t rest ih =>
    intro d d2 hval h
    unfold buildDict at h
    cases ht : t.biotoolsID with
    | none => rw [ht] at h; cases h
    | some k =>
      rw [ht] at h
      exact ih (dictInsert d k t) d2 (dictInsert_values_id d k t hval ht) h

/-- The central dedup fact: after building the dict over `tools`, the
entries at key `id` are the single pair holding the last record of `tools`
with that `biotoolsID` — or whatever the initial dict held at `id` when
`tools` has no such record. -/
theorem buildDict_filter (tools : List Record) :
    ∀ (d d2 : List (String × Record)) (id : String),
    (d.map Prod.fst).Nodup →
    buildDict tools d = Except.ok d2 →
    d2.filter (fun p => p.1 == id)
      = (lastOcc id tools).elim (d.filter (fun p => p.1 == id))
          (fun r => [(id, r)]) := by
  induction tools with
  | nil =>
    intro d d2 id hnd h
    simp only [buildDict, Except.ok.injEq] at h
    subst h
    rfl
  | cons t rest ih =>
    intro d d2 id hnd h
    unfold buildDict at h
    cases ht : t.biotoolsID with
    | none => rw [ht] at h; cases h
    | some k =>
      rw [ht] at h
      have hih := ih (dictInsert d k t) d2 id (dictInsert_keys_nodup d k t hnd) h
      cases hlo : lastOcc id rest with
      | some r =>
        rw [hih, hlo]
        simp [lastOcc, hlo]
      | none =>
        rw [hih, hlo]
        simp only [Option.elim]
        by_cases hk : k = id
        · subst hk
          rw [dictInsert_filter_eq d k t hnd]
          simp [lastOcc, hlo, ht]
        · rw [dictInsert_filter_ne d k id t hk]
          simp [lastOcc, hlo, ht, hk]

/-- Filtering the values of the dict by `biotoolsID` is filtering its entries
by key, given the key invariant. -/
theorem map_snd_filter_key (d : List (String × Record)) (id : String)
    (hval : ∀ p ∈ d, p.2.biotoolsID = some p.1) :
    (d.map Prod.snd).filter (fun t => t.biotoolsID == some id)
      = (d.filter (fun p => p.1 == id)).map Prod.snd := by
  induction d with
  | nil => rfl
  | cons p rest ih =>
    have hp := hval p (List.mem_cons_self p rest)
    have hrest : ∀ q ∈ rest, q.2.biotoolsID = some q.1 :=
      fun q hq => hval q (List.mem_cons_of_mem p hq)
    simp only [List.map_cons, List.filter_cons]
    by_cases hk : (p.1 == id) = true
    · have hb : (p.2.biotoolsID == some id) = true := by
        rw [hp]
        simp [beq_iff_eq.mp hk]
      rw [if_pos hb, if_pos hk, List.map_cons, ih hrest]
    · have hb : ¬ (p.2.biotoolsID == some id) = true := by
        rw [hp]
        intro hc
        have hc2 : p.1 = id := Option.some_inj.mp (beq_iff_eq.mp hc)
        simp [hc2] at hk
      rw [if_neg hb, if_neg hk, ih hrest]

/-- What the deduplication step keeps at each identifier: the records of
`aggregate tools` with `biotoolsID = some id` are exactly the last record
of `tools` carrying that identifier (none when `tools` has none). -/
theorem aggregate_filter (tools out : List Record) (id : String)
    (h : aggregate tools = Except.ok out) :
    out.filter (fun t => t.biotoolsID == some id)
      = ((tools.filter (fun t => t.biotoolsID == some id)).getLast?).toList := by
  unfold aggregate at h
  cases hb : buildDict tools [] with
  | error e => rw [hb] at h; cases h
  | ok d2 =>
    rw [hb] at h
    simp only [Except.map, Except.ok.injEq] at h
    subst h
    have hval := buildDict_values_id tools [] d2 (by simp) hb
    have hfil := buildDict_filter tools [] d2 id (by simp) hb
    rw [map_snd_filter_key d2 id hval, hfil, ← lastOcc_eq_getLast?]
    cases lastOcc id tools <;> rfl

/-- C5: running the deduplication step on a record sequence in which some
records carry `biotoolsID = some id` (in particular two records with the
same `biotoolsID` and different content) yields exactly one output record
with that identifier, and it is the last occurrence in processing order. -/
theorem aggregate_last_wins (tools out : List Record) (id : String)
    (hok : aggregate tools = Except.ok out)
    (hne : tools.filter (fun t => t.biotoolsID == some id) ≠ []) :
    out.filter (fun t => t.biotoolsID == some id)
      = [(tools.filter (fun t => t.biotoolsID == some id)).getLast hne] := by
  rw [aggregate_filter tools out id hok,
    List.getLast?_eq_getLast _ hne]
  rfl

/-- First record with the duplicated identifier for the C5 witness. -/
def dupRecFirst : Record :=
  { biotoolsID := some "x", name := some "first",
    topic := some [], documentation := some [], link := some [] }

/-- Second record with the duplicated identifier for the C5 witness. -/
def dupRecSecond : Record :=
  { biotoolsID := some "x", name := some "second",
    topic := some [], documentation := some [], link := some [] }

/-- Witness for C5 at a concrete input: two records with `biotoolsID`
`"x"` and different names dedup to the second one. -/
theorem aggregate_last_wins_witness :
    [dupRecSecond].filter (fun t => t.biotoolsID == some "x")
      = [([dupRecFirst, dupRecSecond].filter
          (fun t => t.biotoolsID == some "x")).getLast (by decide)] :=
  aggregate_last_wins [dupRecFirst, dupRecSecond] [dupRecSecond] "x"
    (by decide) (by decide)

/-- Function `pyInStr` is substring containment: the needle occurs contiguously in
the haystack. -/
theorem pyInStr_iff (needle hay : String) :
    pyInStr needle hay = true ↔
      ∃ s1 s2 : List Char, hay.data = s1 ++ needle.data ++ s2 := by
  unfold pyInStr
  rw [List.any_eq_true]
  constructor
  · rintro ⟨i, _, hdec⟩
    have hp : (hay.data.drop i).take needle.data.length = needle.data :=
      of_decide_eq_true hdec
    refine ⟨hay.data.take i, (hay.data.drop i).drop needle.data.length, ?_⟩
    have h2 : hay.data.drop i
        = needle.data ++ (hay.data.drop i).drop needle.data.length := by
      conv_lhs =>
        rw [← List.take_append_drop needle.data.length (hay.data.drop i)]
      rw [hp]
    conv_lhs => rw [← List.take_append_drop i hay.data, h2]
    rw [List.append_assoc]
  · rintro ⟨s1, s2, hs⟩
    rw [List.append_assoc] at hs
    refine ⟨s1.length, ?_, ?_⟩
    · rw [List.mem_range, hs]
      simp only [List.length_append]
      omega
    · rw [decide_eq_true_eq, hs, List.drop_left, List.take_left]

/-- The row produced for a record whose three required fields are
present. -/
theorem recordToRow_ok (tool : Record) (topics : List TopicRef)
    (docs : List Doc) (links : List Link)
    (ht : tool.topic = some topics) (hd : tool.documentation = some docs)
    (hl : tool.link = some links) :
    recordToRow tool = Except.ok
      { id := tool.biotoolsID.getD ""
        name := tool.name.getD ""
        is_genomics :=
          GENOMIC_EDAM_TOPICS.any
            (fun g => topics.any (fun tr => tr.uri == topicUri g))
        is_proteomics :=
          PROTEOMICS_EDAM_TOPICS.any
            (fun p => topics.any (fun tr => tr.uri == topicUri p))
        is_machine_learning :=
          MACHINE_LEARNING_EDAM_TOPICS.any
            (fun m => topics.any (fun tr => tr.uri == topicUri m))
        documentation := String.intercalate "," (docs.map Doc.url)
        repository :=
          String.intercalate ","
            ((links.filter (fun l => pyInStr "Repository" l.type)).map
              Link.url) } := by
  simp [recordToRow, ht, hd, hl]

/-- A record missing any of the three required fields makes `recordToRow`
raise a `KeyError`. -/
theorem recordToRow_error_missing (tool : Record)
    (h : tool.topic = none ∨ tool.documentation = none ∨ tool.link = none) :
    ∃ e, recordToRow tool = Except.error e := by
  cases htop : tool.topic with
  | none => exact ⟨PyError.keyError "topic", by simp [recordToRow, htop]⟩
  | some topics =>
    cases hdoc : tool.documentation with
    | none =>
      exact ⟨PyError.keyError "documentation", by simp [recordToRow, htop, hdoc]⟩
    | some docs =>
      cases hlink : tool.link with
      | none =>
        exact ⟨PyError.keyError "link", by simp [recordToRow, htop, hdoc, hlink]⟩
      | some links =>
        rcases h with h | h | h
        · rw [htop] at h; cases h
        · rw [hdoc] at h; cases h
        · rw [hlink] at h; cases h

/-- A faulting record anywhere in the input makes the whole conversion
fault. -/
theorem tools_to_df_error_of_mem (tools : List Record) (t : Record)
    (hmem : t ∈ tools) (he : ∃ e, recordToRow t = Except.error e) :
    ∃ e, tools_to_df tools = Except.error e := by
  induction tools with
  | nil => cases hmem
  | cons t0 rest ih =>
    cases hr : recordToRow t0 with
    | error e => exact ⟨e, by simp [tools_to_df, hr]⟩
    | ok row =>
      rcases List.mem_cons.mp hmem with heq | hmem2
      · subst heq
        obtain ⟨e, he2⟩ := he
        rw [hr] at he2
        cases he2
      · obtain ⟨e, he2⟩ := ih hmem2
        exact ⟨e, by simp [tools_to_df, hr, he2]⟩

/-- The `id` column of a successfully produced row. -/
theorem recordToRow_id (tool : Record) (row : Row)
    (h : recordToRow tool = Except.ok row) :
    row.id = tool.biotoolsID.getD "" := by
  cases htop : tool.topic with
  | none => simp [recordToRow, htop] at h
  | some topics =>
    cases hdoc : tool.documentation with
    | none => simp [recordToRow, htop, hdoc] at h
    | some docs =>
      cases hlink : tool.link with
      | none => simp [recordToRow, htop, hdoc, hlink] at h
      | some links =>
        simp only [recordToRow, htop, hdoc, hlink, Except.ok.injEq] at h
        rw [← h]

/-- On success, the `id` column of the table lists each input record
`biotoolsID` (empty-string default), in input order. -/
theorem tools_to_df_ids (tools : List Record) :
    ∀ rows, tools_to_df tools = Except.ok rows →
      rows.map Row.id = tools.map (fun t => t.biotoolsID.getD "") := by
  induction tools with
  | nil =>
    intro rows h
    simp only [tools_to_df, Except.ok.injEq] at h
    subst h
    rfl
  | cons t rest ih =>
    intro rows h
    unfold tools_to_df at h
    cases hr : recordToRow t with
    | error e => rw [hr] at h; cases h
    | ok row =>
      rw [hr] at h
      cases hrest : tools_to_df rest with
      | error e => rw [hrest] at h; cases h
      | ok rows2 =>
        rw [hrest] at h
        cases h
        have hid : row.id = t.biotoolsID.getD "" := recordToRow_id t row hr
        simp [List.map_cons, hid, ih rows2 hrest]

/-- C6: a record whose declared topic URIs include
`http://edamontology.org/topic_0622` gets `is_genomics = true`; when none
of its topic URIs equals a proteomics or machine-learning taxonomy URI
(the fixed namespace prefix concatenated with a configured id, compared by
string equality), `is_proteomics` and `is_machine_learning` are `false`. -/
theorem tools_to_df_genomics_0622 (tool : Record) (topics : List TopicRef)
    (docs : List Doc) (links : List Link)
    (ht : tool.topic = some topics) (hd : tool.documentation = some docs)
    (hl : tool.link = some links)
    (h0622 : TopicRef.mk "http://edamontology.org/topic_0622" ∈ topics)
    (hnoprot : ∀ tr ∈ topics, ∀ p ∈ PROTEOMICS_EDAM_TOPICS, tr.uri ≠ topicUri p)
    (hnoml : ∀ tr ∈ topics,
      ∀ m ∈ MACHINE_LEARNING_EDAM_TOPICS, tr.uri ≠ topicUri m) :
    ∃ row, recordToRow tool = Except.ok row ∧
      row.is_genomics = true ∧ row.is_proteomics = false ∧
      row.is_machine_learning = false := by
  refine ⟨_, recordToRow_ok tool topics docs links ht hd hl, ?_, ?_, ?_⟩
  · show (GENOMIC_EDAM_TOPICS.any
      (fun g => topics.any (fun tr => tr.uri == topicUri g))) = true
    rw [List.any_eq_true]
    refine ⟨"0622", by simp [GENOMIC_EDAM_TOPICS], ?_⟩
    rw [List.any_eq_true]
    exact ⟨TopicRef.mk "http://edamontology.org/topic_0622", h0622,
      by rw [beq_iff_eq]; rfl⟩
  · show (PROTEOMICS_EDAM_TOPICS.any
      (fun p => topics.any (fun tr => tr.uri == topicUri p))) = false
    rw [List.any_eq_false]
    intro p hp hc
    rw [List.any_eq_true] at hc
    obtain ⟨tr, htr, hbeq⟩ := hc
    exact hnoprot tr htr p hp (beq_iff_eq.mp hbeq)
  · show (MACHINE_LEARNING_EDAM_TOPICS.any
      (fun m => topics.any (fun tr => tr.uri == topicUri m))) = false
    rw [List.any_eq_false]
    intro m hm hc
    rw [List.any_eq_true] at hc
    obtain ⟨tr, htr, hbeq⟩ := hc
    exact hnoml tr htr m hm (beq_iff_eq.mp hbeq)

/-- Record declaring exactly the genomics topic 0622, for the C6
witness. -/
def genomicsRec : Record :=
  { biotoolsID := some "g", name := some "G",
    topic := some [TopicRef.mk "http://edamontology.org/topic_0622"],
    documentation := some [], link := some [] }

/-- Witness for C6 at a concrete input. -/
theorem tools_to_df_genomics_0622_witness :
    ∃ row, recordToRow genomicsRec = Except.ok row ∧
      row.is_genomics = true ∧ row.is_proteomics = false ∧
      row.is_machine_learning = false :=
  tools_to_df_genomics_0622 genomicsRec
    [TopicRef.mk "http://edamontology.org/topic_0622"] [] []
    rfl rfl rfl (by decide) (by decide) (by decide)

/-- C7: the `repository` column is the comma-join, in input order, of the
URLs of exactly those links whose `type` contains the case-sensitive
substring `"Repository"` — where containment means a contiguous occurrence
of the characters of `"Repository"` inside the `type` string. -/
theorem tools_to_df_repository_filter (tool : Record) (topics : List TopicRef)
    (docs : List Doc) (links : List Link)
    (ht : tool.topic = some topics) (hd : tool.documentation = some docs)
    (hl : tool.link = some links) :
    ∃ row, recordToRow tool = Except.ok row ∧
      row.repository = String.intercalate ","
        ((links.filter (fun l => pyInStr "Repository" l.type)).map Link.url) ∧
      ∀ s : String, pyInStr "Repository" s = true ↔
        ∃ s1 s2 : List Char, s.data = s1 ++ "Repository".data ++ s2 := by
  refine ⟨_, recordToRow_ok tool topics docs links ht hd hl, rfl, ?_⟩
  intro s
  exact pyInStr_iff "Repository" s

/-- The links of the C7 witness record: `"Other"` does not contain
`"Repository"`, `"SourceRepository"` does. -/
def linksABC : List Link :=
  [Link.mk "A" "Repository", Link.mk "B" "Other", Link.mk "C" "SourceRepository"]

/-- Record carrying the three C7 links. -/
def repoRec : Record :=
  { biotoolsID := some "r", name := some "R",
    topic := some [], documentation := some [], link := some linksABC }

/-- Witness for C7 at the concrete input of the claim: the field
`repository` is `"A,C"`. -/
theorem tools_to_df_repository_filter_witness :
    ∃ row, recordToRow repoRec = Except.ok row ∧ row.repository = "A,C" := by
  obtain ⟨row, hok, hrepo, _⟩ :=
    tools_to_df_repository_filter repoRec [] [] linksABC rfl rfl rfl
  refine ⟨row, hok, ?_⟩
  rw [hrepo]
  decide

/-- C8: a record without a `topic` field anywhere in the input makes the
whole conversion fault (`KeyError`), producing no table at all, while a
record missing `biotoolsID` or `name` (the three required fields being
present) is tolerated with empty-string defaults. -/
theorem tools_to_df_topic_required :
    (∀ (tools : List Record) (t : Record), t ∈ tools → t.topic = none →
      ∃ e, tools_to_df tools = Except.error e) ∧
    (∀ (tool : Record) (topics : List TopicRef) (docs : List Doc)
      (links : List Link),
      tool.topic = some topics → tool.documentation = some docs →
      tool.link = some links →
      ∃ row, recordToRow tool = Except.ok row ∧
        (tool.biotoolsID = none → row.id = "") ∧
        (tool.name = none → row.name = "")) := by
  constructor
  · intro tools t hmem htop
    exact tools_to_df_error_of_mem tools t hmem
      (recordToRow_error_missing t (Or.inl htop))
  · intro tool topics docs links ht hd hl
    refine ⟨_, recordToRow_ok tool topics docs links ht hd hl, ?_, ?_⟩
    · intro hid
      show tool.biotoolsID.getD "" = ""
      rw [hid]
      rfl
    · intro hname
      show tool.name.getD "" = ""
      rw [hname]
      rfl

/-- Record without a `topic` field, for the C8 witness. -/
def noTopicRec : Record :=
  { biotoolsID := some "t", name := some "T", topic := none,
    documentation := some [], link := some [] }

/-- Record without `biotoolsID` and `name`, for the C8 witness. -/
def noIdNameRec : Record :=
  { biotoolsID := none, name := none, topic := some [],
    documentation := some [], link := some [] }

/-- Witness for C8 at concrete inputs. -/
theorem tools_to_df_topic_required_witness :
    (∃ e, tools_to_df [noTopicRec] = Except.error e) ∧
    (∃ row, recordToRow noIdNameRec = Except.ok row ∧
      (noIdNameRec.biotoolsID = none → row.id = "") ∧
      (noIdNameRec.name = none → row.name = "")) :=
  ⟨tools_to_df_topic_required.1 [noTopicRec] noTopicRec
      (List.mem_cons_self noTopicRec []) rfl,
   tools_to_df_topic_required.2 noIdNameRec [] [] [] rfl rfl rfl⟩

/-- C10: a record without a `documentation` field, or without a `link`
field, anywhere in the input makes the whole conversion fault — these are
required fields at the transformer interface, like `topic`, with no
empty-default tolerance. -/
theorem tools_to_df_doc_link_required :
    (∀ (tools : List Record) (t : Record), t ∈ tools →
      t.documentation = none → ∃ e, tools_to_df tools = Except.error e) ∧
    (∀ (tools : List Record) (t : Record), t ∈ tools →
      t.link = none → ∃ e, tools_to_df tools = Except.error e) := by
  constructor
  · intro tools t hmem h
    exact tools_to_df_error_of_mem tools t hmem
      (recordToRow_error_missing t (Or.inr (Or.inl h)))
  · intro tools t hmem h
    exact tools_to_df_error_of_mem tools t hmem
      (recordToRow_error_missing t (Or.inr (Or.inr h)))

/-- Record without a `documentation` field, for the C10 witness. -/
def noDocRec : Record :=
  { biotoolsID := some "d", name := some "D", topic := some [],
    documentation := none, link := some [] }

/-- Record without a `link` field, for the C10 witness. -/
def noLinkRec : Record :=
  { biotoolsID := some "l", name := some "L", topic := some [],
    documentation := some [], link := none }

/-- Witness for C10 at concrete inputs. -/
theorem tools_to_df_doc_link_required_witness :
    (∃ e, tools_to_df [noDocRec] = Except.error e) ∧
    (∃ e, tools_to_df [noLinkRec] = Except.error e) :=
  ⟨tools_to_df_doc_link_required.1 [noDocRec] noDocRec
      (List.mem_cons_self noDocRec []) rfl,
   tools_to_df_doc_link_required.2 [noLinkRec] noLinkRec
      (List.mem_cons_self noLinkRec []) rfl⟩

/-- Every record surviving deduplication carries a `biotoolsID`. -/
theorem aggregate_ids_some (tools out : List Record)
    (h : aggregate tools = Except.ok out) :
    ∀ t ∈ out, ∃ k, t.biotoolsID = some k := by
  unfold aggregate at h
  cases hb : buildDict tools [] with
  | error e => rw [hb] at h; cases h
  | ok d2 =>
    rw [hb] at h
    simp only [Except.map, Except.ok.injEq] at h
    subst h
    intro t ht
    obtain ⟨p, hp, hpt⟩ := List.mem_map.mp ht
    refine ⟨p.1, ?_⟩
    rw [← hpt]
    exact buildDict_values_id tools [] d2 (by simp) hb p hp

/-- C1 counterexample: a raw-fetch cache holding two records with
`biotoolsID = "x"` yields a derived table with two rows for `"x"` — on the
raw-cache path the driver skips the deduplication step (it sits inside the
network branch), so identifier uniqueness fails there. -/
theorem mainDf_rawCache_duplicate_counterexample :
    Except.map (fun rows => (rows.filter (fun r => r.id == "x")).length)
        (mainDf (RunSource.rawCache [dupRecFirst, dupRecSecond]))
      = Except.ok 2 ∧ ¬ (2 ≤ 1) := by
  decide

/-- C1 (amended): the derived table produced by the driver contains at
most one row per `biotoolsID` when the records come from the network path,
where the dict-based deduplication runs; on the raw-fetch-cache path no
deduplication is performed, and duplicate identifiers in the cache file
survive into the table. -/
theorem mainDf_network_unique_ids (fetched : List Record) (rows : List Row)
    (id : String)
    (h : mainDf (RunSource.network fetched) = Except.ok rows) :
    (rows.filter (fun r => r.id == id)).length ≤ 1 := by
  simp only [mainDf] at h
  cases hagg : aggregate fetched with
  | error e => rw [hagg] at h; cases h
  | ok out =>
    rw [hagg] at h
    simp only [Except.bind] at h
    have hids := tools_to_df_ids out rows h
    have hsome := aggregate_ids_some fetched out hagg
    have hcount : (rows.filter (fun r => r.id == id)).length
        = (out.filter (fun t => t.biotoolsID == some id)).length := by
      rw [← List.countP_eq_length_filter, ← List.countP_eq_length_filter]
      have h1 : rows.countP (fun r => r.id == id)
          = (rows.map Row.id).countP (fun s => s == id) := by
        rw [List.countP_map]
        rfl
      have h2 : (out.map (fun t => t.biotoolsID.getD "")).countP
            (fun s => s == id)
          = out.countP (fun t => t.biotoolsID.getD "" == id) := by
        rw [List.countP_map]
        rfl
      rw [h1, hids, h2]
      refine List.countP_congr ?_
      intro t ht
      obtain ⟨k, hk⟩ := hsome t ht
      rw [hk]
      simp [beq_iff_eq]
    have hfil := aggregate_filter fetched out id hagg
    rw [hcount, hfil]
    cases (fetched.filter (fun t => t.biotoolsID == some id)).getLast? <;> simp

/-- Witness for C1 at a concrete input: the network path dedups the two
`"x"` records down to one row. -/
theorem mainDf_network_unique_ids_witness :
    (([{ id := "x", name := "second", is_genomics := false,
         is_proteomics := false, is_machine_learning := false,
         documentation := "", repository := "" }] : List Row).filter
        (fun r => r.id == "x")).length ≤ 1 :=
  mainDf_network_unique_ids [dupRecFirst, dupRecSecond]
    [{ id := "x", name := "second", is_genomics := false,
       is_proteomics := false, is_machine_learning := false,
       documentation := "", repository := "" }] "x" (by decide)

end DomeMetrics
